import Mathlib

/-!
Verification of the mail header module (`header.go`) of the go-mail
repository: a shallow embedding of `ReadHeader`, `Header.Verify`,
`Header.Valid` and `Header.Repair`, together with theorems about the
properties stated in the specification.

Go strings are modelled as lists of byte values; an indexing or slicing
operation that Go would abort with a runtime panic (index out of range,
slice bounds out of range, nil-pointer dereference) is modelled by an
`Option` result whose `none` case marks the panic.  Loops are modelled by
fuel-indexed recursion with fuel large enough that it is never exhausted
on terminating runs.  The polymorphic `Field` values, the field factory
and the small `Fields` helper methods live outside the repository sources
and are modelled from the specification where so marked.
-/

namespace Mail

/-- A Go string viewed as its byte values. -/
abbrev Bytes := List Nat

/-- Byte access `s[i]`; `none` models Go's index-out-of-range panic. -/
def byteAt (s : Bytes) (i : Nat) : Option Nat := s.get? i

/-- Slice `s[i:j]` in positions where the source guarantees `j ≤ len(s)`. -/
def sliceB (s : Bytes) (i j : Nat) : Bytes := (s.drop i).take (j - i)

/-- Slice `s[i:j]` with Go's bounds check; `none` models the slice-bounds panic. -/
def sliceG (s : Bytes) (i j : Nat) : Option Bytes :=
  if i ≤ j ∧ j ≤ s.length then some ((s.drop i).take (j - i)) else none

/-- ASCII lower-casing of one byte, the fragment of `strings.ToLower`
relevant to the ASCII comparisons performed by the parser. -/
def lowerB (b : Nat) : Nat := if 65 ≤ b ∧ b ≤ 90 then b + 32 else b

/-- ASCII lower-casing of one character, the fragment of `strings.ToLower`
relevant to the canonical-key comparisons of the repair engine. -/
def lowerChar (c : Char) : Char :=
  if 65 ≤ c.toNat ∧ c.toNat ≤ 90 then Char.ofNat (c.toNat + 32) else c

/-- ASCII lower-casing of a string (`strings.ToLower` on the ASCII keys the
source compares). -/
def lowerStr (s : String) : String := String.mk (s.data.map lowerChar)

/-- The byte string "from " that identifies an mbox separator line. -/
def fromBytes : Bytes := [102, 114, 111, 109, 32]

/-- Whitespace bytes (space, tab, CR, LF). -/
def isWSB (b : Nat) : Bool := b == 32 || b == 9 || b == 13 || b == 10

/-- Collapse interior whitespace runs to one space; the flag records whether
the previous byte was whitespace. -/
def collapseWS : Bool → Bytes → Bytes
  | _, [] => []
  | prevWS, b :: rest =>
    if isWSB b then
      if prevWS then collapseWS true rest else 32 :: collapseWS true rest
    else b :: collapseWS false rest

/-- Modelled from the spec: the "whitespace-collapsed, trimmed" form of a
value (`simplify` in the sources of the parent project, not under `src/`):
leading and trailing whitespace is removed and every interior whitespace
run becomes a single space. -/
def simplifyB (s : Bytes) : Bytes :=
  collapseWS false (((s.dropWhile isWSB).reverse.dropWhile isWSB).reverse)

/-- Whether the lower-cased name starts with "x-". -/
def isXName (name : Bytes) : Bool := [120, 45].isPrefixOf (name.map lowerB)

/-- Header mode: a top-level RFC 5322 message header or a MIME part header. -/
inductive HeaderMode where
  | Rfc5322Header
  | MimeHeader
deriving DecidableEq, Repr

export HeaderMode (Rfc5322Header MimeHeader)

/-- An address record. Modelled from the spec: the address grammar is an
external collaborator; each address exposes the canonical
"local-part@domain" comparison key `lpdomain`. -/
structure Address where
  lpdomain : String
deriving DecidableEq, Repr

/-- A header field. Modelled from the spec: the polymorphic `Field`
variants live outside the repository sources, so the capability set
{canonical name, unfolded rendering `rfc822(false)`, validity, error
description, addresses, content-type data} is modelled as one flat record.
The `id` tag models Go pointer identity: the repair code compares fields
with pointer (in)equality, and distinct fields of one header are distinct
allocations. -/
structure Field where
  id : Nat
  name : String
  value : String
  valid : Bool
  errText : String
  rfc822 : String
  addresses : List Address
  ctType : String
  ctSubtype : String
  ctParams : List (String × String)
deriving DecidableEq, Repr

/-- The Header record: mode, ordered field sequence, cached error and the
memoized verification flag. -/
structure Header where
  mode : HeaderMode
  Fields : List Field
  err : Option String
  verified : Bool
deriving DecidableEq, Repr

/-- Modelled from the spec: the field factory `NewHeaderField` constructs a
field variant for the given name and raw value and asks it to self-parse;
the variants' own grammars are outside the repository sources, so the
generic variant's defaults (always valid, no structured data) stand in for
the capability fields the parser-level claims do not touch. -/
def NewHeaderField (name value : Bytes) : Field :=
  { id := 0
    name := String.mk (name.map Char.ofNat)
    value := String.mk (value.map Char.ofNat)
    valid := true
    errText := ""
    rfc822 := String.mk (name.map Char.ofNat) ++ ": " ++ String.mk (value.map Char.ofNat)
    addresses := []
    ctType := ""
    ctSubtype := ""
    ctParams := [] }

/-- The field-name scan of `ReadHeader`: advance while the byte is printable
ASCII in [33,127] and not a colon. -/
def scanName (s : Bytes) (endd : Nat) : Nat → Nat → Nat
  | 0, j => j
  | fuel+1, j =>
    if j < endd ∧ 33 ≤ (byteAt s j).getD 0 ∧ (byteAt s j).getD 0 ≤ 127
        ∧ (byteAt s j).getD 0 ≠ 58 then
      scanName s endd fuel (j+1)
    else j

/-- First loop of the mbox branch: advance while in range and not CR/LF. -/
def skipToCRLF (s : Bytes) (endd : Nat) : Nat → Nat → Nat
  | 0, i => i
  | fuel+1, i =>
    if i < endd ∧ (byteAt s i).getD 0 ≠ 13 ∧ (byteAt s i).getD 0 ≠ 10 then
      skipToCRLF s endd fuel (i+1)
    else i

/-- Second loop of the mbox branch, `for rfc5322[i] == '\r'`: the index is
read without a bounds check, so running past the end is a panic. -/
def crSkip (s : Bytes) : Nat → Nat → Option Nat
  | 0, i => some i
  | fuel+1, i =>
    match byteAt s i with
    | none => none
    | some b => if b = 13 then crSkip s fuel (i+1) else some i

/-- The whole mbox separator branch of `ReadHeader` (lines 46-54): skip to
the end of the line, skip carriage returns, consume one line feed.  The
CR loop and the LF test index the string without bounds checks. -/
def mboxSkip (s : Bytes) (endd i : Nat) : Option Nat :=
  let i1 := skipToCRLF s endd (endd + 1) i
  match crSkip s (endd + 1) i1 with
  | none => none
  | some i2 =>
    match byteAt s i2 with
    | none => none
    | some b => some (if b = 10 then i2 + 1 else i2)

/-- The whitespace skip after the colon, `for rfc5322[i]==' '||rfc5322[i]=='\t'`:
again indexed without a bounds check, so `none` models the panic on input
that ends right after the colon. -/
def skipWS (s : Bytes) : Nat → Nat → Option Nat
  | 0, i => some i
  | fuel+1, i =>
    match byteAt s i with
    | none => none
    | some b => if b = 32 ∨ b = 9 then skipWS s fuel (i+1) else some i

/-- The value scan (lines 66-68): advance while in range and the byte is not
a line feed, or the line feed is followed by space/tab (folding). All
indexing here is guarded, so this loop cannot panic. -/
def scanValue (s : Bytes) (endd : Nat) : Nat → Nat → Nat
  | 0, j => j
  | fuel+1, j =>
    if j < endd ∧ ((byteAt s j).getD 0 ≠ 10 ∨
        (j+1 < endd ∧ ((byteAt s (j+1)).getD 0 = 32 ∨ (byteAt s (j+1)).getD 0 = 9))) then
      scanValue s endd fuel (j+1)
    else j

/-- The append decision of `ReadHeader` (line 74): the parsed field is kept
only if its simplified value is non-empty or the name starts with "x-". -/
def appendDecision (fields : List Field) (name value : Bytes) : List Field :=
  if simplifyB value ≠ [] ∨ isXName name = true then
    fields ++ [NewHeaderField name value]
  else fields

/-- One pass of the `ReadHeader` loop body per recursive step; `none` models
a Go runtime panic inside the loop. The BOM test, the mbox-token slice
`rfc5322[i:j+1]`, the `rfc5322[j]` colon test and the whitespace and CR
skips follow the source's bounds behaviour exactly. -/
def readLoop (m : HeaderMode) (s : Bytes) : Nat → Nat → List Field → Option (List Field)
  | 0, _, _ => none
  | fuel+1, i, fields =>
    let endd := s.length
    if i ≥ endd then some fields else
    let i := if i + 2 < endd ∧ byteAt s i = some 239 ∧ byteAt s (i+1) = some 187
        ∧ byteAt s (i+2) = some 191 then i + 3 else i
    let j := scanName s endd (endd + 1) i
    let mboxTest : Option Bool :=
      if j = i + 4 ∧ m = Rfc5322Header then
        match sliceG s i (j+1) with
        | none => none
        | some sub => some (decide (sub.map lowerB = fromBytes))
      else some false
    match mboxTest with
    | none => none
    | some true =>
      match mboxSkip s endd i with
      | none => none
      | some i' => readLoop m s fuel i' fields
    | some false =>
      if j > i then
        match byteAt s j with
        | none => none
        | some b =>
          if b = 58 then
            let name := sliceB s i j
            match skipWS s (endd + 1) (j + 1) with
            | none => none
            | some i2 =>
              let j2 := scanValue s endd (endd + 1) i2
              let j3 := if j2 > 0 ∧ byteAt s (j2 - 1) = some 13 then j2 - 1 else j2
              let value := sliceB s i2 j3
              let fields' := appendDecision fields name value
              let i4 := if j3 + 1 < endd ∧ byteAt s j3 = some 13
                  ∧ byteAt s (j3+1) = some 10 then j3 + 1 else j3
              readLoop m s fuel (i4 + 1) fields'
          else some fields
      else some fields

/-- `ReadHeader(rfc5322, m) (h *Header, err error)`. The `error` result is
the second component; the whole result is `none` when the Go code panics.
The source's single return statement is `return h, nil`. -/
def ReadHeader (rfc5322 : Bytes) (m : HeaderMode) : Option (Header × Option String) :=
  match readLoop m rfc5322 (rfc5322.length + 2) 0 [] with
  | none => none
  | some fields => some ({ mode := m, Fields := fields, err := none, verified := false }, none)

/-- Canonical field names. Modelled from the spec: the name constants live in
the field module outside the repository sources; the canonical forms match
the spec's examples (e.g. "Content-Type"). -/
def FromFieldName : String := "From"

def ResentFromFieldName : String := "Resent-From"

def SenderFieldName : String := "Sender"

def ResentSenderFieldName : String := "Resent-Sender"

def ReturnPathFieldName : String := "Return-Path"

def ReplyToFieldName : String := "Reply-To"

def ToFieldName : String := "To"

def CcFieldName : String := "Cc"

def BccFieldName : String := "Bcc"

def ResentToFieldName : String := "Resent-To"

def ResentCcFieldName : String := "Resent-Cc"

def ResentBccFieldName : String := "Resent-Bcc"

def MessageIdFieldName : String := "Message-Id"

def ContentIdFieldName : String := "Content-Id"

def ResentMessageIdFieldName : String := "Resent-Message-Id"

def ReferencesFieldName : String := "References"

def SubjectFieldName : String := "Subject"

def DateFieldName : String := "Date"

def MimeVersionFieldName : String := "Mime-Version"

def ContentTypeFieldName : String := "Content-Type"

def ContentTransferEncodingFieldName : String := "Content-Transfer-Encoding"

/-- Modelled from the spec: `fieldNames`, the fixed registry of structured
field names iterated by the repair engine (declared in the field module,
outside the repository sources). It contains every canonical name above. -/
def fieldNames : List String :=
  [FromFieldName, ResentFromFieldName, SenderFieldName, ResentSenderFieldName,
   ReturnPathFieldName, ReplyToFieldName, ToFieldName, CcFieldName, BccFieldName,
   ResentToFieldName, ResentCcFieldName, ResentBccFieldName, MessageIdFieldName,
   ContentIdFieldName, ResentMessageIdFieldName, ReferencesFieldName,
   SubjectFieldName, DateFieldName, MimeVersionFieldName, ContentTypeFieldName,
   ContentTransferEncodingFieldName]

/-- A cardinality rule `(name, min, max, mode)`. -/
structure HeaderFieldCondition where
  name : String
  min : Nat
  max : Nat
  m : HeaderMode
deriving DecidableEq, Repr

/-- The fixed, ordered condition table of `header.go` (lines 215-233). -/
def conditions : List HeaderFieldCondition :=
  [⟨SenderFieldName, 0, 1, Rfc5322Header⟩,
   ⟨ReplyToFieldName, 0, 1, Rfc5322Header⟩,
   ⟨ToFieldName, 0, 1, Rfc5322Header⟩,
   ⟨CcFieldName, 0, 1, Rfc5322Header⟩,
   ⟨BccFieldName, 0, 1, Rfc5322Header⟩,
   ⟨MessageIdFieldName, 0, 1, Rfc5322Header⟩,
   ⟨ReferencesFieldName, 0, 1, Rfc5322Header⟩,
   ⟨SubjectFieldName, 0, 1, Rfc5322Header⟩,
   ⟨FromFieldName, 1, 1, Rfc5322Header⟩,
   ⟨DateFieldName, 1, 1, Rfc5322Header⟩,
   ⟨MimeVersionFieldName, 0, 1, Rfc5322Header⟩,
   ⟨MimeVersionFieldName, 0, 1, MimeHeader⟩,
   ⟨ContentTypeFieldName, 0, 1, Rfc5322Header⟩,
   ⟨ContentTypeFieldName, 0, 1, MimeHeader⟩,
   ⟨ContentTransferEncodingFieldName, 0, 1, Rfc5322Header⟩,
   ⟨ContentTransferEncodingFieldName, 0, 1, MimeHeader⟩,
   ⟨ReturnPathFieldName, 0, 1, Rfc5322Header⟩]

/-- Occurrence count of a field name, the `occurrences` map of `Verify` and
`Repair`. -/
def occCount (fs : List Field) (name : String) : Nat :=
  (fs.filter (fun f => f.name == name)).length

/-- The scan of `Header.field` (lines 102-114): the `n`-th field with the
given name, in insertion order. -/
def fieldIn : List Field → String → Nat → Option Field
  | [], _, _ => none
  | f :: fs, fn, n =>
    if f.name == fn then
      if n > 0 then fieldIn fs fn (n - 1) else some f
    else fieldIn fs fn n

/-- `Header.field`. -/
def Header.field (h : Header) (fn : String) (n : Nat) : Option Field :=
  fieldIn h.Fields fn n

/-- The names accepted by `Header.addressField` (lines 119-123). -/
def addressFieldNames : List String :=
  [FromFieldName, ResentFromFieldName, SenderFieldName, ResentSenderFieldName,
   ReturnPathFieldName, ReplyToFieldName, ToFieldName, CcFieldName, BccFieldName,
   ResentToFieldName, ResentCcFieldName, ResentBccFieldName, MessageIdFieldName,
   ContentIdFieldName, ResentMessageIdFieldName, ReferencesFieldName]

/-- `Header.addressField`: the `n`-th field of the name when the name is an
address-bearing one, otherwise nil. -/
def addressFieldIn (fs : List Field) (fn : String) (n : Nat) : Option Field :=
  if addressFieldNames.contains fn then fieldIn fs fn n else none

/-- `Header.addresses`: the address list of the first field of the name
(lines 133-143); nil both when the field is absent and when its list is
empty. -/
def addressesIn (fs : List Field) (fn : String) : List Address :=
  match addressFieldIn fs fn 0 with
  | some f => f.addresses
  | none => []

/-- The first invalid field, if any (the loop of `Verify`, lines 244-249). -/
def findInvalid (fs : List Field) : Option Field :=
  fs.find? (fun f => !f.valid)

/-- The condition-table scan of `Verify` (lines 256-270). The boolean mirrors
the source's operator precedence: `(m == mode && count < min) || count > max`,
so the max test is not gated by the mode. The first firing entry produces
the error message and ends the scan. -/
def scanConds (mode : HeaderMode) (occ : String → Nat) : List HeaderFieldCondition → Option String
  | [] => none
  | c :: rest =>
    if (c.m = mode ∧ occ c.name < c.min) ∨ occ c.name > c.max then
      some (if c.max < occ c.name then
              Nat.repr (occ c.name) ++ " " ++ c.name ++ " fields seen. At most " ++
                Nat.repr c.max ++ " may be present."
            else
              Nat.repr (occ c.name) ++ " " ++ c.name ++ " fields seen. At least " ++
                Nat.repr c.min ++ " must be present.")
    else scanConds mode occ rest

/-- `Header.Verify` (lines 237-280): memoized via the `verified` flag; records
the first invalid field's error, else the first violated cardinality rule. -/
def Header.Verify (h : Header) : Header :=
  if h.verified then h
  else
    let h' : Header := { h with verified := true, err := none }
    match findInvalid h'.Fields with
    | some f => { h' with err := some (f.name ++ ": " ++ f.errText) }
    | none => { h' with err := scanConds h'.mode (occCount h'.Fields) conditions }

/-- `Header.Valid` (lines 93-96): verify, then report whether the cached
error is nil. -/
def Header.Valid (h : Header) : Bool :=
  (h.Verify).err.isNone

/-- An in-place removal loop `for i < len(fields) { if p then RemoveAt(i) else i++ }`,
which keeps exactly the elements not satisfying `p`, in order. -/
def removeMatching (p : Field → Bool) : List Field → List Field
  | [] => []
  | f :: fs => if p f then removeMatching p fs else f :: removeMatching p fs

/-- Modelled from the spec: `Fields.RemoveAllNamed` removes every field with
the given name (method declared outside the repository sources). -/
def removeAllNamed (name : String) (fs : List Field) : List Field :=
  removeMatching (fun f => f.name == name) fs

/-- Modelled from the spec: `Fields.Remove` removes the given field from the
sequence; the field is identified by pointer identity, modelled as the `id`
tag. -/
def removeFirstId (i : Nat) : List Field → List Field
  | [] => []
  | f :: fs => if f.id == i then fs else f :: removeFirstId i fs

/-- In-place mutation of the field with the given identity (the effect of
calling a method on the pointer returned by `Header.field`). -/
def mapFirstId (i : Nat) (g : Field → Field) : List Field → List Field
  | [] => []
  | f :: fs => if f.id == i then g f :: fs else f :: mapFirstId i g fs

/-- Modelled from the spec: `Field.Parse` feeds the variant a new raw value
to self-parse; the variant grammars are outside the repository sources, so
only the recorded raw value changes. -/
def Field.Parse (f : Field) (s : String) : Field :=
  { f with value := s }

/-- The inner removal loop of the exact-duplicate collapse (lines 301-315):
walk the fields, counting occurrences of `name`; every occurrence after the
first whose rendering equals `r` (the first occurrence's rendering) is
removed. -/
def collapseDup (name r : String) : Nat → List Field → List Field
  | _, [] => []
  | n, f :: fs =>
    if f.name == name then
      if n + 1 > 1 ∧ f.rfc822 == r then collapseDup name r (n + 1) fs
      else f :: collapseDup name r (n + 1) fs
    else f :: collapseDup name r n fs

/-- The per-entry body of the exact-duplicate collapse: fetch the first field
of the name (`hf`) and run the removal loop against its rendering. A `none`
first field would be a nil dereference in the source; it cannot arise there
because the gate requires more occurrences than the (non-negative) maximum. -/
def collapseStep (name : String) (fs : List Field) : List Field :=
  match fieldIn fs name 0 with
  | some hf => collapseDup name hf.rfc822 0 fs
  | none => fs

/-- Step 1 of `Header.Repair` (lines 297-318): for every condition entry of
this mode whose maximum is exceeded, collapse byte-identical duplicates. -/
def step1 (mode : HeaderMode) (occ : String → Nat) (fs : List Field) : List Field :=
  conditions.foldl
    (fun fs c => if c.m = mode ∧ occ c.name > c.max then collapseStep c.name fs else fs) fs

/-- The scanning loop of the Content-Type consolidation (lines 330-347):
`other` walks the Content-Type occurrences; `good` holds the unique
parameterized occurrence; `bad` is set on a type/subtype mismatch or a
second parameterized occurrence. -/
def ctLoop (fs : List Field) (ct : Field) :
    Nat → Option Field → Option Field → Bool → Nat → Option Field × Bool
  | 0, _, good, bad, _ => (good, bad)
  | fuel+1, other, good, bad, n =>
    match other with
    | none => (good, bad)
    | some o =>
      if bad then (good, bad)
      else
        let gb : Option Field × Bool :=
          if o.ctType ≠ ct.ctType ∨ o.ctSubtype ≠ ct.ctSubtype then (good, true)
          else if o.ctParams.length > 0 then (some o, good.isSome)
          else (good, bad)
        ctLoop fs ct fuel (fieldIn fs ContentTypeFieldName (n + 1)) gb.1 gb.2 (n + 1)

/-- Step 2 of `Header.Repair` (lines 324-358): when several Content-Type
fields agree on type/subtype and exactly one carries parameters, keep only
the parameterized one. The `none` case of the first Content-Type field
would be a nil dereference in the source; it cannot arise there because
step 1 keeps the first occurrence of every name. -/
def step2 (occ : String → Nat) (fs : List Field) : List Field :=
  if occ ContentTypeFieldName > 1 then
    match fieldIn fs ContentTypeFieldName 0 with
    | some ct =>
      let gb := ctLoop fs ct (fs.length + 1) (some ct) none false 0
      match gb.1, gb.2 with
      | some good, false =>
        removeMatching (fun f => f.name == ContentTypeFieldName && f.id != good.id) fs
      | _, _ => fs
    | none => fs
  else fs

/-- The per-name body of the prefer-first-valid collapse (lines 380-410):
for a duplicated name in {Date, Return-Path, Message-Id, Content-Type,
References}, find the first individually valid occurrence; if found, remove
every other occurrence of the name — for Content-Type only the invalid
ones. -/
def step3once (occ : String → Nat) (fs : List Field) (name : String) : List Field :=
  if occ name > 1 ∧ (name = DateFieldName ∨ name = ReturnPathFieldName ∨
      name = MessageIdFieldName ∨ name = ContentTypeFieldName ∨
      name = ReferencesFieldName) then
    match fs.find? (fun f => f.name == name && f.valid) with
    | some firstValid =>
      let alsoValid := !(name == ContentTypeFieldName)
      removeMatching
        (fun f => f.name == name && f.id != firstValid.id && (alsoValid || !f.valid)) fs
    | none => fs
  else fs

/-- Step 3 of `Header.Repair`: the prefer-first-valid collapse, iterated over
the field-name registry. -/
def step3 (occ : String → Nat) (fs : List Field) : List Field :=
  fieldNames.foldl (step3once occ) fs

/-- Step 4 of `Header.Repair` (lines 414-418): if a second Mime-Version field
exists, remove it and re-parse the first with a note recording the original
occurrence count. A missing first occurrence after the removal would be a
nil dereference in the source; it cannot arise because a second occurrence
implies a first. -/
def step4 (occ : String → Nat) (fs : List Field) : List Field :=
  match fieldIn fs MimeVersionFieldName 1 with
  | none => fs
  | some f1 =>
    let fs := removeFirstId f1.id fs
    match fieldIn fs MimeVersionFieldName 0 with
    | none => fs
    | some fmv =>
      mapFirstId fmv.id
        (fun f => f.Parse ("1.0 (Note: original message contained " ++
          Nat.repr (occ MimeVersionFieldName) ++ " Mime-Version fields)")) fs

/-- Step 5 of `Header.Repair` (lines 423-428): Content-Transfer-Encoding
suppression. The source condition is
`ct != nil && ct.Type == "multipart" || ct.Type == "message"`;
with Go precedence the second disjunct dereferences `ct` even when it is
nil, so a header that still has Content-Transfer-Encoding occurrences but
no Content-Type field panics (`none`). -/
def step5 (occ : String → Nat) (fs : List Field) : Option (List Field) :=
  if occ ContentTransferEncodingFieldName > 0 then
    match fieldIn fs ContentTypeFieldName 0 with
    | some ct =>
      if ct.ctType = "multipart" ∨ ct.ctType = "message" then
        some (removeAllNamed ContentTransferEncodingFieldName fs)
      else some fs
    | none => none
  else some fs

/-- The subset-comparison loop of the Sender mirror removal (lines 447-454):
`for i < len(sender) && difference { ... }`. The guard requires `difference`
to be true already, so the body can never run. -/
def senderDiffLoop (fromKeys sender : List String) : Nat → Nat → Bool → Bool
  | 0, _, difference => difference
  | fuel+1, i, difference =>
    if i < sender.length ∧ difference = true then
      let d := if !(fromKeys.contains ((sender.get? i).getD "")) then true else difference
      senderDiffLoop fromKeys sender fuel (i + 1) d
    else difference

/-- Step 6 of `Header.Repair` (lines 434-458): Sender mirror removal. Both
the key set and the comparison list are built from the From addresses, as
in the source (lines 438 and 443), and the difference flag starts false. -/
def step6 (occ : String → Nat) (fs : List Field) : List Field :=
  let senders := addressesIn fs SenderFieldName
  if occ SenderFieldName > 0 ∧ senders.length ≠ 1 then
    let fromKeys := (addressesIn fs FromFieldName).map (fun a => lowerStr a.lpdomain)
    let sender := (addressesIn fs FromFieldName).map (fun a => lowerStr a.lpdomain)
    let difference := senderDiffLoop fromKeys sender (sender.length + 1) 0 false
    if difference = false then removeAllNamed SenderFieldName fs else fs
  else fs

/-- `Header.Repair` (lines 284-459): a no-op when `Valid()`; otherwise the six
repair steps run in sequence on the field list, with the occurrence map
taken once, before any removal. The `verified` flag and the cached error
set by the entry `Valid()` call are never written by the steps. `none`
models the nil-dereference panic of step 5. -/
def Header.Repair (h : Header) : Option Header :=
  let h := h.Verify
  if h.err.isNone then some h
  else
    let occ := occCount h.Fields
    let fs := step1 h.mode occ h.Fields
    let fs := step2 occ fs
    let fs := step3 occ fs
    let fs := step4 occ fs
    match step5 occ fs with
    | none => none
    | some fs => some { h with Fields := step6 occ fs }


/-- A generic valid field with the conventional rendering `name: value`. -/
def mkF (i : Nat) (n v : String) : Field :=
  { id := i, name := n, value := v, valid := true, errText := "",
    rfc822 := n ++ ": " ++ v, addresses := [], ctType := "", ctSubtype := "",
    ctParams := [] }

/-- A generic valid address-bearing field. -/
def mkAF (i : Nat) (n v : String) (as : List Address) : Field :=
  { mkF i n v with addresses := as }

/-- The bytes of "X-Anything:" followed by a line feed. -/
def xAnythingBytes : Bytes := [88, 45, 65, 110, 121, 116, 104, 105, 110, 103, 58, 10]

/-- The bytes of "Subject:" followed by a line feed. -/
def subjectEmptyBytes : Bytes := [83, 117, 98, 106, 101, 99, 116, 58, 10]

/-- The bytes of "a:". -/
def aColonBytes : Bytes := [97, 58]

/-- The bytes of "From" (an unterminated mbox token). -/
def fromTokenBytes : Bytes := [70, 114, 111, 109]

/-- The bytes of "From x" followed by a carriage return (an mbox separator
line not terminated by a line feed). -/
def fromCRBytes : Bytes := [70, 114, 111, 109, 32, 120, 13]

/-- An invalid-but-repairable header: two byte-identical Subject fields plus
one From and one Date, in Rfc5322Header mode. -/
def hdrC2 : Header :=
  { mode := Rfc5322Header,
    Fields := [mkF 0 "Subject" "hello", mkF 1 "Subject" "hello",
               mkAF 2 "From" "a@b" [⟨"a@b"⟩], mkF 3 "Date" "today"],
    err := none, verified := false }

/-- The result of repairing `hdrC2`: one Subject, the From and the Date,
with the pre-repair error still cached. -/
def hdrC2R : Header :=
  { mode := Rfc5322Header,
    Fields := [mkF 0 "Subject" "hello", mkAF 2 "From" "a@b" [⟨"a@b"⟩],
               mkF 3 "Date" "today"],
    err := some "2 Subject fields seen. At most 1 may be present.",
    verified := true }

/-- A MimeHeader-mode header with two individually valid Subject fields. -/
def hdrC3x : Header :=
  { mode := MimeHeader,
    Fields := [mkF 0 "Subject" "a", mkF 1 "Subject" "b"],
    err := none, verified := false }

/-- A MimeHeader-mode header with a single valid Subject field. -/
def hdrC3w : Header :=
  { mode := MimeHeader, Fields := [mkF 0 "Subject" "a"], err := none,
    verified := false }

/-- An invalid Rfc5322Header-mode header whose Sender field carries two
addresses, neither of whose canonical keys appears among the From keys. -/
def hdrC4 : Header :=
  { mode := Rfc5322Header,
    Fields := [mkF 0 "Subject" "hi", mkF 1 "Subject" "hi",
               mkAF 2 "From" "x" [⟨"a@b"⟩], mkF 3 "Date" "today",
               mkAF 4 "Sender" "y" [⟨"c@d"⟩, ⟨"e@f"⟩]],
    err := none, verified := false }

/-- An invalid MimeHeader-mode header with two identical
Content-Transfer-Encoding fields and no Content-Type field. -/
def hdrC5 : Header :=
  { mode := MimeHeader,
    Fields := [mkF 0 "Content-Transfer-Encoding" "base64",
               mkF 1 "Content-Transfer-Encoding" "base64"],
    err := none, verified := false }

/-- A MimeHeader-mode header with three byte-identical `Mime-Version: 1.0`
fields and nothing else. -/
def hdrC6 : Header :=
  { mode := MimeHeader,
    Fields := [mkF 0 "Mime-Version" "1.0", mkF 1 "Mime-Version" "1.0",
               mkF 2 "Mime-Version" "1.0"],
    err := none, verified := false }

/-- Two byte-identical Subject fields plus one From and one Date, in
Rfc5322Header mode (the cardinality example of the spec). -/
def hdrC7 : Header :=
  { mode := Rfc5322Header,
    Fields := [mkF 0 "Subject" "hello", mkF 1 "Subject" "hello",
               mkAF 2 "From" "a@b" [⟨"a@b"⟩], mkF 3 "Date" "today"],
    err := none, verified := false }

/-- A field list with an invalid first Date, a valid second Date and an
unrelated From field. -/
def fsC8 : List Field :=
  [{ mkF 0 "Date" "bogus" with valid := false, errText := "bad date" },
   mkF 1 "Date" "ok", mkAF 2 "From" "x" [⟨"a@b"⟩]]

/-- The valid Date occurrence of `fsC8`. -/
def fvC8 : Field := mkF 1 "Date" "ok"


/-- The in-place removal loop keeps exactly the elements rejected by the
predicate, in order. -/
theorem removeMatching_eq_filter (p : Field → Bool) (fs : List Field) :
    removeMatching p fs = fs.filter (fun f => !p f) := by
  induction fs with
  | nil => rfl
  | cons f fs ih =>
    simp only [removeMatching, List.filter]
    cases hp : p f <;> simp [hp, ih]

/-- `Verify` always leaves the memo flag set. -/
theorem verify_verified (h : Header) : (h.Verify).verified = true := by
  simp only [Header.Verify]
  split
  · assumption
  · split <;> rfl

/-- `Verify` is a no-op on an already verified header (the memoization). -/
theorem verify_of_verified (h : Header) (hv : h.verified = true) : h.Verify = h := by
  unfold Header.Verify
  simp [hv]

/-- On a verified header, `Valid` just reads the cached error. -/
theorem valid_of_verified (h : Header) (hv : h.verified = true) :
    h.Valid = h.err.isNone := by
  unfold Header.Valid
  rw [verify_of_verified h hv]

/-- C2 (amended): whenever `Repair` completes, the subsequent `Valid()`
verdict equals the pre-repair verdict — `Repair` never clears the `verified`
flag or the cached error set by its entry `Valid()` call, so the memoized
verdict survives mutation by `Repair` too. -/
theorem repair_preserves_cached_verdict (h h' : Header) (hrep : h.Repair = some h') :
    h'.Valid = h.Valid := by
  have hvv := verify_verified h
  simp only [Header.Repair] at hrep
  split at hrep
  · cases hrep
    rw [valid_of_verified _ hvv]
    rfl
  · split at hrep
    · cases hrep
    · cases hrep
      rw [valid_of_verified _ (by simpa using hvv)]
      rfl

/-- C2 (counterexample): an invalid header (two identical Subject fields plus
From and Date) that `Repair` turns into one whose fields are all individually
valid and whose cardinality rules are all satisfied, yet whose subsequent
`Valid()` still returns false. -/
theorem repair_then_valid_counterexample :
    hdrC2.Repair = some hdrC2R ∧
    findInvalid hdrC2R.Fields = none ∧
    scanConds hdrC2R.mode (occCount hdrC2R.Fields) conditions = none ∧
    hdrC2R.Valid = false := by
  refine ⟨by decide, by decide, by decide, by decide⟩

/-- C2 witness: the theorem applied to the concrete repaired header. -/
theorem repair_preserves_cached_verdict_witness : hdrC2R.Valid = hdrC2.Valid :=
  repair_preserves_cached_verdict hdrC2 hdrC2R (by decide)

/-- The condition scan accepts exactly when no entry satisfies the source's
firing condition `(entry mode = header mode and count < min) or count > max`. -/
theorem scanConds_none_iff (mode : HeaderMode) (occ : String → Nat) :
    ∀ L : List HeaderFieldCondition,
      scanConds mode occ L = none ↔
        ∀ c ∈ L, ¬((c.m = mode ∧ occ c.name < c.min) ∨ occ c.name > c.max) := by
  intro L
  induction L with
  | nil => simp [scanConds]
  | cons c rest ih =>
    simp only [scanConds]
    split
    · constructor
      · intro hc; cases hc
      · intro hall
        exact absurd ‹_› (hall c (by simp))
    · rw [ih]
      constructor
      · intro hall d hd
        rcases List.mem_cons.mp hd with hdc | hdr
        · subst hdc; assumption
        · exact hall d hdr
      · intro hall d hd
        exact hall d (List.mem_cons_of_mem c hd)

/-- C3 (counterexample): a MimeHeader-mode header with two individually valid
Subject fields is reported invalid, although the only Subject entry in the
condition table is scoped to Rfc5322Header — the claim predicted valid. -/
theorem mode_gating_counterexample :
    hdrC3x.mode = MimeHeader ∧ findInvalid hdrC3x.Fields = none ∧
    occCount hdrC3x.Fields SubjectFieldName = 2 ∧ hdrC3x.Valid = false := by
  refine ⟨rfl, by decide, by decide, by decide⟩

/-- C3 (amended): for a header whose fields are all individually valid,
`Verify` reports no error exactly when no condition entry fires under
`(entry mode matches and count < min) or count > max` — the too-few check is
gated by the entry's mode but the too-many check is not; in particular the
MimeHeader-mode header with two Subject fields is invalid. -/
theorem verify_cardinality_gating :
    (∀ h : Header, h.verified = false → findInvalid h.Fields = none →
      ((h.Verify).err = none ↔
        ∀ c ∈ conditions,
          ¬((c.m = h.mode ∧ occCount h.Fields c.name < c.min) ∨
            occCount h.Fields c.name > c.max))) ∧
    hdrC3x.Valid = false := by
  constructor
  · intro h hv hinv
    simp only [Header.Verify, hv]
    rw [if_neg (by simp)]
    simp only [hinv]
    exact scanConds_none_iff h.mode (occCount h.Fields) conditions
  · decide

/-- C3 witness: the theorem applied to a single-Subject MimeHeader-mode
header, whose verification indeed records no error. -/
theorem verify_cardinality_gating_witness : (hdrC3w.Verify).err = none :=
  (verify_cardinality_gating.1 hdrC3w rfl (by decide)).mpr (by decide)

/-- C4 (amended): whenever a Sender field occurs and its address count is not
exactly one, the Sender mirror-removal step drops all Sender fields
unconditionally — the subset-comparison loop's guard requires the difference
flag to be set already, so the comparison never runs. -/
theorem sender_removed_unconditionally (occ : String → Nat) (fs : List Field)
    (h1 : occ SenderFieldName > 0)
    (h2 : (addressesIn fs SenderFieldName).length ≠ 1) :
    step6 occ fs = removeAllNamed SenderFieldName fs := by
  have hloop : ∀ (a b : List String) (fuel i : Nat),
      senderDiffLoop a b fuel i false = false := by
    intro a b fuel i
    cases fuel <;> simp [senderDiffLoop]
  simp only [step6]
  rw [if_pos ⟨h1, h2⟩, hloop, if_pos rfl]

/-- C4 witness: the theorem applied to the concrete header with two Sender
addresses. -/
theorem sender_removed_unconditionally_witness :
    step6 (occCount hdrC4.Fields) hdrC4.Fields =
      removeAllNamed SenderFieldName hdrC4.Fields :=
  sender_removed_unconditionally (occCount hdrC4.Fields) hdrC4.Fields
    (by decide) (by decide)

/-- C4 (counterexample): a header whose Sender keys do not all appear among
the From keys — the claim says the Sender fields are kept — still loses all
its Sender fields during repair. -/
theorem sender_mirror_counterexample :
    (hdrC4.Repair).map (fun h => h.Fields.map Field.name) =
      some ["Subject", "From", "Date"] ∧
    ((addressesIn hdrC4.Fields SenderFieldName).map (fun a => lowerStr a.lpdomain)).all
      (fun k => ((addressesIn hdrC4.Fields FromFieldName).map
        (fun a => lowerStr a.lpdomain)).contains k) = false := by
  refine ⟨by decide, by decide⟩

/-- C5: a header that contains Content-Transfer-Encoding fields but no
Content-Type field makes `Repair` dereference the absent Content-Type
(`ct.Type == "message"` is evaluated even when `ct` is nil because `&&`
binds tighter than `||`), a nil-pointer panic — the claim says `Repair`
completes and leaves the fields in place. -/
theorem cte_suppression_nil_dereference :
    occCount hdrC5.Fields ContentTransferEncodingFieldName > 0 ∧
    fieldIn hdrC5.Fields ContentTypeFieldName 0 = none ∧
    hdrC5.Repair = none := by
  refine ⟨by decide, by decide, by decide⟩

/-- C1: `ReadHeader` is not total — on the claim's own example inputs it
indexes the string out of range (a Go runtime panic): "a:" panics in the
whitespace skip after the colon, "From" panics slicing the mbox token one
byte past the end, and "From x" followed by a bare carriage return panics
consuming the mbox line terminator. -/
theorem readHeader_panics_on_truncated_input :
    ReadHeader aColonBytes Rfc5322Header = none ∧
    ReadHeader fromTokenBytes Rfc5322Header = none ∧
    ReadHeader fromCRBytes Rfc5322Header = none := by
  refine ⟨by decide, by decide, by decide⟩

/-- C6 (counterexample): a header with three byte-identical
`Mime-Version: 1.0` fields (all individually valid) repairs to a single
Mime-Version field whose value is still "1.0" — it does not contain the
synthetic note recording the duplicate count of 3. -/
theorem mime_version_note_counterexample :
    occCount hdrC6.Fields MimeVersionFieldName = 3 ∧
    findInvalid hdrC6.Fields = none ∧
    (hdrC6.Repair).map (fun h => h.Fields.map Field.value) = some ["1.0"] ∧
    ¬ ("original message contained 3 Mime-Version fields".data <:+:
        ("1.0" : String).data) := by
  refine ⟨by decide, by decide, by decide, ?_⟩
  intro hinf
  have hle := hinf.length_le
  simp at hle

/-- C6 (amended): the three byte-identical Mime-Version fields collapse to
exactly one field with its value unchanged; the exact-duplicate collapse of
step 1 removes the duplicates before the Mime-Version step, which then finds
no second occurrence and writes no note. -/
theorem mime_version_collapse_without_note :
    (hdrC6.Repair).map (fun h => (h.Fields.map Field.value, h.Fields.length)) =
      some (["1.0"], 1) := by decide

/-- `Header.field` with index 0 returns the first occurrence of the name. -/
theorem fieldIn_first (name : String) (pre post : List Field) (f0 : Field)
    (hpre : ∀ f ∈ pre, f.name ≠ name) (hf0 : f0.name = name) :
    fieldIn (pre ++ f0 :: post) name 0 = some f0 := by
  induction pre with
  | nil => simp [fieldIn, hf0]
  | cons g gs ih =>
    have hg : (g.name == name) = false := by
      simpa using hpre g (by simp)
    simp only [List.cons_append, fieldIn, hg]
    exact ih (fun f hf => hpre f (by simp [hf]))

/-- The duplicate-removal loop passes over fields of other names. -/
theorem collapseDup_no_match (name r : String) (n : Nat) (pre rest : List Field)
    (hpre : ∀ f ∈ pre, f.name ≠ name) :
    collapseDup name r n (pre ++ rest) = pre ++ collapseDup name r n rest := by
  induction pre with
  | nil => rfl
  | cons g gs ih =>
    have hg : (g.name == name) = false := by
      simpa using hpre g (by simp)
    have ih' := ih (fun f hf => hpre f (by simp [hf]))
    simp [collapseDup, hg, ih']

/-- After the first occurrence has been counted, the duplicate-removal loop
keeps exactly the fields that are not occurrences of the name rendering
identically to the first. -/
theorem collapseDup_pos (name r : String) :
    ∀ (post : List Field) (n : Nat), 1 ≤ n →
      collapseDup name r n post =
        post.filter (fun f => !(f.name == name && f.rfc822 == r)) := by
  intro post
  induction post with
  | nil => intro n _; rfl
  | cons f fs ih =>
    intro n hn
    have hgt : n + 1 > 1 := by omega
    by_cases hf : f.name = name
    · by_cases hr : f.rfc822 = r
      · simp [collapseDup, List.filter, hf, hr, hgt, ih (n + 1) (by omega)]
      · have hrb : (f.rfc822 == r) = false := by simpa using hr
        simp [collapseDup, List.filter, hf, hrb, ih (n + 1) (by omega)]
    · have hfb : (f.name == name) = false := by simpa using hf
      simp [collapseDup, List.filter, hfb, ih n hn]

/-- C7: the exact-duplicate collapse keeps the first occurrence of the name
and drops exactly the later occurrences whose unfolded rendering is
byte-identical to the first's, leaving differing occurrences and other
fields in place; and the spec's cardinality example holds: two identical
Subject fields plus From and Date in Rfc5322Header mode give the error
"2 Subject fields seen. At most 1 may be present." before repair and exactly
one Subject field after repair. -/
theorem exact_duplicate_collapse :
    (∀ (name : String) (pre post : List Field) (f0 : Field),
      (∀ f ∈ pre, f.name ≠ name) → f0.name = name →
      collapseStep name (pre ++ f0 :: post) =
        pre ++ f0 :: post.filter
          (fun f => !(f.name == name && f.rfc822 == f0.rfc822))) ∧
    (hdrC7.Verify).err = some "2 Subject fields seen. At most 1 may be present." ∧
    (hdrC7.Repair).map (fun h => h.Fields.map Field.name) =
      some ["Subject", "From", "Date"] := by
  refine ⟨?_, by decide, by decide⟩
  intro name pre post f0 hpre hf0
  have hfi := fieldIn_first name pre post f0 hpre hf0
  simp only [collapseStep, hfi]
  rw [collapseDup_no_match name f0.rfc822 0 pre (f0 :: post) hpre]
  have hfb : (f0.name == name) = true := by simpa using hf0
  simp only [collapseDup, hfb, if_true]
  rw [if_neg (by simp)]
  rw [collapseDup_pos name f0.rfc822 post 1 le_rfl]

/-- C7 witness: the collapse characterization applied to the concrete Subject
duplication. -/
theorem exact_duplicate_collapse_witness :
    collapseStep "Subject"
        ([] ++ mkF 0 "Subject" "hello" ::
          [mkF 1 "Subject" "hello", mkF 3 "Date" "today"]) =
      [] ++ mkF 0 "Subject" "hello" ::
        [mkF 1 "Subject" "hello", mkF 3 "Date" "today"].filter
          (fun f => !(f.name == "Subject" && f.rfc822 == (mkF 0 "Subject" "hello").rfc822)) :=
  exact_duplicate_collapse.1 "Subject" [] _ _ (by simp) rfl

/-- C8: the prefer-first-valid collapse for a duplicated name among
{Date, Return-Path, Message-Id, Content-Type, References}: when some
occurrence is individually valid, every occurrence other than the first
valid one is removed — except for Content-Type, where valid alternates are
preserved and only the other invalid occurrences are removed; when no
occurrence is valid, the field list is unchanged. -/
theorem prefer_first_valid_collapse (occ : String → Nat) (fs : List Field)
    (name : String)
    (hname : name = DateFieldName ∨ name = ReturnPathFieldName ∨
      name = MessageIdFieldName ∨ name = ContentTypeFieldName ∨
      name = ReferencesFieldName)
    (hocc : occ name > 1) :
    (∀ fv, fs.find? (fun f => f.name == name && f.valid) = some fv →
      (name ≠ ContentTypeFieldName →
        step3once occ fs name =
          fs.filter (fun f => !(f.name == name) || f.id == fv.id)) ∧
      (name = ContentTypeFieldName →
        step3once occ fs name =
          fs.filter (fun f => !(f.name == name) || f.id == fv.id || f.valid))) ∧
    (fs.find? (fun f => f.name == name && f.valid) = none →
      step3once occ fs name = fs) := by
  constructor
  · intro fv hfind
    constructor
    · intro hne
      have hb : (name == ContentTypeFieldName) = false := by simpa using hne
      simp only [step3once, hfind]
      rw [if_pos ⟨hocc, hname⟩]
      rw [removeMatching_eq_filter]
      apply List.filter_congr
      intro f _
      cases hfn : (f.name == name) <;> cases hid : (f.id == fv.id) <;>
        cases hv : f.valid <;> simp [hb, bne, hfn, hid, hv]
    · intro heq
      have hb : (name == ContentTypeFieldName) = true := by simpa using heq
      simp only [step3once, hfind]
      rw [if_pos ⟨hocc, hname⟩]
      rw [removeMatching_eq_filter]
      apply List.filter_congr
      intro f _
      cases hfn : (f.name == name) <;> cases hid : (f.id == fv.id) <;>
        cases hv : f.valid <;> simp [hb, bne, hfn, hid, hv]
  · intro hnone
    simp only [step3once, hnone]
    rw [if_pos ⟨hocc, hname⟩]

/-- C8 witness: the theorem applied to a list with an invalid first Date and
a valid second Date. -/
theorem prefer_first_valid_collapse_witness :
    step3once (occCount fsC8) fsC8 DateFieldName =
      fsC8.filter (fun f => !(f.name == DateFieldName) || f.id == fvC8.id) :=
  ((prefer_first_valid_collapse (occCount fsC8) fsC8 DateFieldName
      (Or.inl rfl) (by decide)).1 fvC8 (by decide)).1 (by decide)

/-- C9: `ReadHeader` appends the parsed field exactly when the
whitespace-collapsed, trimmed value is non-empty or the name case-
insensitively starts with "x-"; concretely, an empty-valued "X-Anything"
field is retained and an empty-valued "Subject" field is dropped. -/
theorem parser_append_condition :
    (∀ (fields : List Field) (name value : Bytes),
      appendDecision fields name value = fields ++ [NewHeaderField name value] ↔
        (simplifyB value ≠ [] ∨ isXName name = true)) ∧
    (ReadHeader xAnythingBytes Rfc5322Header).map
      (fun p => (p.1.Fields.map Field.name, p.2)) = some (["X-Anything"], none) ∧
    (ReadHeader subjectEmptyBytes Rfc5322Header).map
      (fun p => (p.1.Fields.map Field.name, p.2)) = some ([], none) := by
  refine ⟨?_, by decide, by decide⟩
  intro fields name value
  unfold appendDecision
  split
  · simp only [true_iff]
    assumption
  · constructor
    · intro heq
      have := congrArg List.length heq
      simp at this
    · intro hc
      exact absurd hc ‹_›

/-- C9 witness: the append characterization applied to an empty-valued
extension field. -/
theorem parser_append_condition_witness :
    appendDecision [] [88, 45, 97] [] = [] ++ [NewHeaderField [88, 45, 97] []] :=
  (parser_append_condition.1 [] [88, 45, 97] []).mpr (Or.inr (by decide))

/-- C10: whenever `ReadHeader` returns, its error result is nil — the single
return statement of the source hard-codes a nil error, so no input can
surface a parse error through that channel. -/
theorem readHeader_error_always_nil (s : Bytes) (m : HeaderMode) (h : Header)
    (e : Option String) (hr : ReadHeader s m = some (h, e)) : e = none := by
  unfold ReadHeader at hr
  cases hloop : readLoop m s (s.length + 2) 0 [] with
  | none => rw [hloop] at hr; cases hr
  | some fields =>
    rw [hloop] at hr
    cases hr
    rfl

/-- C10 witness: the theorem applied to the empty input. -/
theorem readHeader_error_always_nil_witness :
    ReadHeader [] Rfc5322Header =
      some (⟨Rfc5322Header, [], none, false⟩, none) ∧
    (none : Option String) = none :=
  ⟨by decide, readHeader_error_always_nil [] Rfc5322Header
    ⟨Rfc5322Header, [], none, false⟩ none (by decide)⟩

end Mail
